import Mathlib

/-!
Verification of the location resolution, caching and rate-limited dispatch
core of the x-account-location extension.  The definitions below are a
shallow embedding of `src/content.js` (the canonical implementation; the
second source variant is a superseded draft of the same code) and of
`src/countryFlags.js`.  Timestamps are modelled as `Nat` milliseconds
(`Date.now()`) or `Nat` seconds where the source divides by 1000; the
JavaScript `Map`s are modelled as association lists with `Map.set` /
`Map.delete` semantics.
-/

namespace XAccountLocation

/-! ### Configuration constants (content.js lines 1-29) -/

def CACHE_EXPIRY_DAYS : Nat := 30
def NULL_CACHE_EXPIRY_DAYS : Nat := 1
def MIN_REQUEST_INTERVAL : Nat := 3500
def MAX_CONCURRENT_REQUESTS : Nat := 1
def MAX_QUEUE_SIZE : Nat := 50
def BASE_BACKOFF_MINUTES : Nat := 5
def REQUEST_TIMEOUT : Nat := 10000

/-! ### Association lists standing in for JavaScript `Map` objects.
`setKey` mirrors `Map.set` (update in place, else append), `delKey`
mirrors `Map.delete`, `findKey` mirrors `Map.get`/`Map.has`. -/

abbrev AList (α : Type) : Type := List (String × α)

def AList.findKey {α : Type} : AList α → String → Option α
  | [], _ => none
  | (k', v) :: rest, k => if k' = k then some v else AList.findKey rest k

def AList.setKey {α : Type} : AList α → String → α → AList α
  | [], k, v => [(k, v)]
  | (k', v') :: rest, k, v =>
      if k' = k then (k, v) :: rest else (k', v') :: AList.setKey rest k v

def AList.delKey {α : Type} : AList α → String → AList α
  | [], _ => []
  | (k', v') :: rest, k =>
      if k' = k then rest else (k', v') :: AList.delKey rest k

def AList.keys {α : Type} (m : AList α) : List String := m.map Prod.fst

/-! ### Cache entries (content.js line 32 and saveCacheEntry, lines 282-306) -/

structure CacheEntry where
  location : Option String
  expiry : Nat
  cachedAt : Nat
deriving Repr, DecidableEq

abbrev Cache : Type := AList CacheEntry

def msPerDay : Nat := 24 * 60 * 60 * 1000

/-- `calculateExpiry` (content.js lines 145-148): null locations use the
short negative TTL, non-null locations the long positive TTL.  The source
tests `location === null`, a strict comparison, so an empty string counts
as non-null here. -/
def calculateExpiry (location : Option String) (now : Nat) : Nat :=
  let days := if location = none then NULL_CACHE_EXPIRY_DAYS else CACHE_EXPIRY_DAYS
  now + days * msPerDay

/-! ### Statistics map (content.js line 56 and updateStats, lines 264-279).
A JavaScript `Set` of usernames is modelled as a duplicate-free list kept
in insertion order. -/

abbrev Stats : Type := AList (List String)

/-- `updateStats` (content.js lines 264-279).  The guard `if (!location)`
is falsy for both `null` and the empty string. -/
def updateStats (stats : Stats) (username : String) (location : Option String) : Stats :=
  match location with
  | none => stats
  | some loc =>
      if loc = "" then stats
      else
        match AList.findKey stats loc with
        | none => AList.setKey stats loc [username]
        | some names =>
            if username ∈ names then stats
            else AList.setKey stats loc (names ++ [username])

/-! ### Mutable module state (content.js lines 32-56) gathered into one
record that the embedded operations thread explicitly. -/

structure ResolverState where
  locationCache : Cache
  locationStats : Stats
  requestQueue : List String
  pendingLocationRequests : List String
  rateLimitResetTime : Nat
  consecutiveRateLimits : Nat
  lastRequestTime : Nat
  activeRequests : Nat
  isProcessingQueue : Bool
deriving Repr, DecidableEq

def initState : ResolverState :=
  { locationCache := [], locationStats := [], requestQueue := [],
    pendingLocationRequests := [], rateLimitResetTime := 0,
    consecutiveRateLimits := 0, lastRequestTime := 0, activeRequests := 0,
    isProcessingQueue := false }

/-- `saveCacheEntry` (content.js lines 282-306): store the entry with its
computed expiry and update statistics for non-null locations (the strict
`location !== null` test at line 295). -/
def saveCacheEntry (s : ResolverState) (username : String) (location : Option String)
    (now : Nat) : ResolverState :=
  let entry : CacheEntry :=
    { location := location, expiry := calculateExpiry location now, cachedAt := now }
  let cache' := AList.setKey s.locationCache username entry
  let stats' := if location ≠ none then updateStats s.locationStats username location
                else s.locationStats
  { s with locationCache := cache', locationStats := stats' }

/-- The cache check at the top of `getLocation` (content.js lines 482-497):
return the entry only when `cached.expiry && cached.expiry > now`; an
expired (or zero-expiry, hence falsy) entry found during the lookup is
deleted as a side effect.  A hit returns the stored entry and leaves the
cache unchanged. -/
def cacheGet (c : Cache) (k : String) (now : Nat) : Option CacheEntry × Cache :=
  match AList.findKey c k with
  | some cached =>
      if cached.expiry > now then (some cached, c)
      else (none, AList.delKey c k)
  | none => (none, c)

/-! ### Display mapping (`src/countryFlags.js`) -/

/-- `COUNTRY_FLAGS` (countryFlags.js lines 2-75): the static country name
to flag emoji table. -/
def COUNTRY_FLAGS : List (String × String) :=
  [("Afghanistan", "🇦🇫"), ("Albania", "🇦🇱"), ("Algeria", "🇩🇿"),
   ("Argentina", "🇦🇷"), ("Australia", "🇦🇺"), ("Austria", "🇦🇹"),
   ("Bangladesh", "🇧🇩"), ("Belgium", "🇧🇪"), ("Brazil", "🇧🇷"),
   ("Canada", "🇨🇦"), ("Chile", "🇨🇱"), ("China", "🇨🇳"),
   ("Colombia", "🇨🇴"), ("Czech Republic", "🇨🇿"), ("Denmark", "🇩🇰"),
   ("Egypt", "🇪🇬"), ("Europe", "🇪🇺"), ("Finland", "🇫🇮"),
   ("France", "🇫🇷"), ("Germany", "🇩🇪"), ("Greece", "🇬🇷"),
   ("Guatemala", "🇬🇹"), ("Honduras", "🇭🇳"), ("Hong Kong", "🇭🇰"),
   ("Hungary", "🇭🇺"), ("Iceland", "🇮🇸"), ("India", "🇮🇳"),
   ("Indonesia", "🇮🇩"), ("Iran", "🇮🇷"), ("Iraq", "🇮🇶"),
   ("Ireland", "🇮🇪"), ("Israel", "🇮🇱"), ("Italy", "🇮🇹"),
   ("Jamaica", "🇯🇲"), ("Japan", "🇯🇵"), ("Jordan", "🇯🇴"),
   ("Kenya", "🇰🇪"), ("Malaysia", "🇲🇾"), ("Morocco", "🇲🇦"),
   ("Mexico", "🇲🇽"), ("Netherlands", "🇳🇱"), ("New Zealand", "🇳🇿"),
   ("Nigeria", "🇳🇬"), ("Norway", "🇳🇴"), ("Pakistan", "🇵🇰"),
   ("Panama", "🇵🇦"), ("Peru", "🇵🇪"), ("Philippines", "🇵🇭"),
   ("Poland", "🇵🇱"), ("Portugal", "🇵🇹"), ("Romania", "🇷🇴"),
   ("Russia", "🇷🇺"), ("Saudi Arabia", "🇸🇦"), ("Singapore", "🇸🇬"),
   ("South Africa", "🇿🇦"), ("Korea", "🇰🇷"), ("South Korea", "🇰🇷"),
   ("Spain", "🇪🇸"), ("Sri Lanka", "🇱🇰"), ("Sweden", "🇸🇪"),
   ("Switzerland", "🇨🇭"), ("Taiwan", "🇹🇼"), ("Thailand", "🇹🇭"),
   ("Trinidad and Tobago", "🇹🇹"), ("Turkey", "🇹🇷"), ("Ukraine", "🇺🇦"),
   ("United Arab Emirates", "🇦🇪"), ("United Kingdom", "🇬🇧"),
   ("United States", "🇺🇸"), ("Uruguay", "🇺🇾"), ("Venezuela", "🇻🇪"),
   ("Vietnam", "🇻🇳")]

/-- The JavaScript `String.prototype.toLowerCase` on the ASCII country
names of the table. -/
def jsToLowerCase (s : String) : String := ⟨s.data.map Char.toLower⟩

/-- The JavaScript `String.prototype.trim`: strip whitespace from both
ends. -/
def jsTrim (s : String) : String :=
  ⟨((s.data.dropWhile Char.isWhitespace).reverse.dropWhile Char.isWhitespace).reverse⟩

/-- `COUNTRY_FLAGS_LOWER` (countryFlags.js lines 77-80): the same table
keyed by the lowercased country names. -/
def COUNTRY_FLAGS_LOWER : List (String × String) :=
  COUNTRY_FLAGS.map (fun p => (jsToLowerCase p.1, p.2))

/-- `getCountryFlag` (countryFlags.js lines 82-87).  The guard
`if (!countryName)` is falsy for `null` and for the empty string; the
table lookup result `|| null` maps a missing key to `null`. -/
def getCountryFlag (countryName : Option String) : Option String :=
  match countryName with
  | none => none
  | some s =>
      if s = "" then none
      else (COUNTRY_FLAGS_LOWER.find? (fun p => p.1 == jsToLowerCase (jsTrim s))).map Prod.snd

/-! ### Location info facade (content.js lines 466-477) -/

structure LocationInfo where
  location : Option String
  flag : Option String
  displayText : Option String
deriving Repr, DecidableEq

/-- `createLocationInfo` (content.js lines 466-477): a falsy location
(null or empty) yields the all-null info; otherwise the display text is
the flag when the mapping has one and the location wrapped in parentheses
otherwise. -/
def createLocationInfo (location : Option String) : LocationInfo :=
  match location with
  | none => { location := none, flag := none, displayText := none }
  | some s =>
      if s = "" then { location := none, flag := none, displayText := none }
      else
        let flag := getCountryFlag (some s)
        { location := some s, flag := flag,
          displayText := some (flag.getD ("(" ++ s ++ ")")) }

/-! ### Rate-limit backoff state machine (content.js lines 318-349) -/

/-- The `__rateLimitInfo` message handler installed by `injectPageScript`
(content.js lines 318-334): increment the consecutive counter, compute the
exponential wait `BASE_BACKOFF_MINUTES * 2 ^ (hits - 1)` minutes, and set
the reset time to the maximum of the remote-reported reset time and `now`
plus the exponential wait (all in epoch seconds). -/
def handleRateLimitInfo (s : ResolverState) (apiResetTime : Nat) (nowSec : Nat) :
    ResolverState :=
  let hits := s.consecutiveRateLimits + 1
  let baseWaitMinutes := BASE_BACKOFF_MINUTES * 2 ^ (hits - 1)
  let exponentialWaitSeconds := baseWaitMinutes * 60
  let exponentialResetTime := nowSec + exponentialWaitSeconds
  { s with consecutiveRateLimits := hits,
           rateLimitResetTime := max apiResetTime exponentialResetTime }

/-- `isRateLimited` (content.js lines 337-341). -/
def isRateLimited (s : ResolverState) (nowSec : Nat) : Bool :=
  if s.rateLimitResetTime = 0 then false
  else decide (nowSec < s.rateLimitResetTime)

/-- `resetRateLimit` (content.js lines 343-349). -/
def resetRateLimit (s : ResolverState) : ResolverState :=
  { s with rateLimitResetTime := 0, consecutiveRateLimits := 0 }

/-! ### The head of `processRequestQueue` (content.js lines 352-382) -/

/-- What the head of `processRequestQueue` decides before any dispatching. -/
inductive DrainDecision where
  | earlyReturn
  | rateLimitedPurge (rejectedTasks : List String) (recheckDelayMs : Nat)
  | proceed
deriving Repr, DecidableEq

/-- The synchronous head of `processRequestQueue` (content.js lines
352-382): return immediately when a drain is already running or the queue
is empty; when rate limited, reject every queued task (each task's
`reject` wrapper deletes its pending registration), empty the queue, and
schedule a re-check after `min(waitTime, 60000)` milliseconds; when the
window has lapsed (`rateLimitResetTime > 0`), clear the backoff state and
proceed into the drain loop. -/
def processRequestQueueStep (s : ResolverState) (nowSec : Nat) :
    ResolverState × DrainDecision :=
  if s.isProcessingQueue || s.requestQueue.isEmpty then (s, .earlyReturn)
  else if isRateLimited s nowSec then
    let waitTime := (s.rateLimitResetTime - nowSec) * 1000
    ({ s with requestQueue := [],
              pendingLocationRequests :=
                s.requestQueue.foldl (fun p k => p.erase k) s.pendingLocationRequests },
     .rateLimitedPurge s.requestQueue (min waitTime 60000))
  else if s.rateLimitResetTime > 0 then (resetRateLimit s, .proceed)
  else (s, .proceed)

/-- Where the synchronous run of `processRequestQueue` ends when it is
invoked from the promise executor (content.js line 539): it returned at
its guard, it purged the queue while rate limited, it entered the drain
loop and suspended awaiting the pacing delay, it popped and dispatched
the head task and suspended awaiting the response, or the loop condition
failed (queue empty or a request already active) and it exited idle. -/
inductive DrainSyncOutcome where
  | returned
  | purged (rejectedTasks : List String) (recheckDelayMs : Nat)
  | suspendedPacing
  | dispatched (screenName : String)
  | exitedIdle
deriving Repr, DecidableEq

/-- The synchronous prefix of a `processRequestQueue()` call (content.js
lines 352-411), as run from line 539 until its first suspension point:
the guard / purge / recovery head (`processRequestQueueStep`, with the
rate-limit clock `Math.floor(now / 1000)`), then ` isProcessingQueue :=
true` and the first drain-loop iteration — suspend on the pacing delay
when `now - lastRequestTime < MIN_REQUEST_INTERVAL`, otherwise shift the
head task, bump `activeRequests`, stamp `lastRequestTime` and suspend
awaiting the dispatched request; when the loop condition fails, clear
` isProcessingQueue` and return. -/
def processRequestQueueSync (s : ResolverState) (now : Nat) :
    ResolverState × DrainSyncOutcome :=
  match processRequestQueueStep s (now / 1000) with
  | (s', .earlyReturn) => (s', .returned)
  | (s', .rateLimitedPurge ts d) => (s', .purged ts d)
  | (s', .proceed) =>
      let s2 := { s' with isProcessingQueue := true }
      match s2.requestQueue with
      | [] => ({ s2 with isProcessingQueue := false }, .exitedIdle)
      | head :: rest =>
          if s2.activeRequests < MAX_CONCURRENT_REQUESTS then
            if now - s2.lastRequestTime < MIN_REQUEST_INTERVAL then (s2, .suspendedPacing)
            else
              ({ s2 with requestQueue := rest, activeRequests := s2.activeRequests + 1,
                         lastRequestTime := now }, .dispatched head)
          else ({ s2 with isProcessingQueue := false }, .exitedIdle)

/-! ### The synchronous entry of `getLocation` (content.js lines 481-544).
Everything from the cache check down to the registration of the pending
promise runs without a suspension point, so under the single-threaded
cooperative scheduling of the page it is one atomic step — but that step
includes the synchronous prefix of the `processRequestQueue()` call at
line 539, which runs between the queue push (line 528, inside the promise
executor) and `pendingLocationRequests.set` (line 542).  A task in
`requestQueue` is identified by its screen name, and the shared promise
registered in `pendingLocationRequests` is identified by the same name
(the map is keyed by it). -/

inductive EntryOutcome where
  | cacheHit (info : LocationInfo)
  | joinedPending
  | queueFull (info : LocationInfo)
  | enqueued (drain : DrainSyncOutcome)
deriving Repr, DecidableEq

/-- The synchronous prefix of `getLocation` (content.js lines 481-544):
cache check with lazy eviction, pending-request check, queue-capacity
check, then the promise executor (push the task and run the synchronous
prefix of `processRequestQueue`, line 539) followed by the registration
of the promise at line 542 — even when the drain's purge has already
settled the freshly pushed task. -/
def getLocationEntry (s : ResolverState) (screenName : String) (now : Nat) :
    ResolverState × EntryOutcome :=
  match cacheGet s.locationCache screenName now with
  | (some cached, c') =>
      ({ s with locationCache := c' }, .cacheHit (createLocationInfo cached.location))
  | (none, c') =>
      let s1 := { s with locationCache := c' }
      if screenName ∈ s1.pendingLocationRequests then (s1, .joinedPending)
      else if s1.requestQueue.length ≥ MAX_QUEUE_SIZE then
        (s1, .queueFull { location := none, flag := none, displayText := none })
      else
        let pushed := { s1 with requestQueue := s1.requestQueue ++ [screenName] }
        let drained := processRequestQueueSync pushed now
        ({ drained.1 with pendingLocationRequests :=
            screenName :: drained.1.pendingLocationRequests },
         .enqueued drained.2)

/-- A sequence of concurrent `getLocation` callers: under cooperative
scheduling their synchronous prefixes run in some sequential order. -/
def runEntries (s : ResolverState) (keys : List String) (now : Nat) :
    ResolverState × List EntryOutcome :=
  match keys with
  | [] => (s, [])
  | k :: ks =>
      let (s1, o) := getLocationEntry s k now
      let (s2, os) := runEntries s1 ks now
      (s2, o :: os)

/-- The `resolve` wrapper a queued task carries (content.js lines 530-533):
settling the shared promise deletes the pending registration before
propagating the value. -/
def settleResolve (s : ResolverState) (screenName : String) : ResolverState :=
  { s with pendingLocationRequests := s.pendingLocationRequests.erase screenName }

/-- The `reject` wrapper a queued task carries (content.js lines 534-537):
failure also deletes the pending registration. -/
def settleReject (s : ResolverState) (screenName : String) : ResolverState :=
  { s with pendingLocationRequests := s.pendingLocationRequests.erase screenName }

/-- The post-wait cache recheck of a joining caller (content.js lines
500-515): after awaiting the shared promise, return the cached info when
the winning caller populated the cache with a live entry, otherwise fall
back to the raw awaited outcome. -/
def afterWaitRecheck (s : ResolverState) (screenName : String) (raw : Option String)
    (now : Nat) : LocationInfo :=
  match AList.findKey s.locationCache screenName with
  | some cached =>
      if cached.expiry > now then createLocationInfo cached.location
      else createLocationInfo raw
  | none => createLocationInfo raw

/-! ### The remote request (content.js lines 417-464) -/

/-- The event that settles a `makeLocationRequest` promise: either the
matching `__locationResponse` message arrives first, or the
`REQUEST_TIMEOUT` timer fires first. -/
inductive RemoteEvent where
  | response (location : Option String) (isRL : Bool)
  | timeout
deriving Repr, DecidableEq

/-- How a promise settles: JavaScript promises either resolve with a value
or reject with an error. -/
inductive SettleKind where
  | resolved (v : Option String)
  | rejected (msg : String)
deriving Repr, DecidableEq

/-- The JavaScript expression `location || null`: `undefined`, `null` and
the empty string all collapse to `null`. -/
def jsOrNull (location : Option String) : Option String :=
  match location with
  | some s => if s = "" then none else some s
  | none => none

/-- `makeLocationRequest` (content.js lines 417-464).  A response that is
not flagged rate-limited is written to the cache via `saveCacheEntry` and
the promise resolves with `location || null`; a rate-limited response is
not cached but still resolves with `location || null`; the timeout path
deletes the pending registration, caches nothing, and resolves with
`null`.  No path calls `reject`. -/
def makeLocationRequest (s : ResolverState) (screenName : String) (ev : RemoteEvent)
    (now : Nat) : ResolverState × SettleKind :=
  match ev with
  | .response location isRL =>
      let v := jsOrNull location
      let s' := if isRL then s else saveCacheEntry s screenName v now
      (s', .resolved v)
  | .timeout =>
      ({ s with pendingLocationRequests := s.pendingLocationRequests.erase screenName },
       .resolved none)

/-- One dispatch iteration of the drain loop (content.js lines 393-411):
the head task has been popped by the caller; increment `activeRequests`,
stamp `lastRequestTime`, await `makeLocationRequest`; on a value, clear
the consecutive rate-limit counter if it was positive and settle the task
through its `resolve` wrapper; the `catch` branch would settle through
`reject`; `finally` decrements `activeRequests`. -/
def drainDispatchStep (s : ResolverState) (screenName : String) (ev : RemoteEvent)
    (now : Nat) : ResolverState × SettleKind :=
  let s0 := { s with activeRequests := s.activeRequests + 1, lastRequestTime := now }
  match makeLocationRequest s0 screenName ev now with
  | (s1, .resolved v) =>
      let s2 := if s1.consecutiveRateLimits > 0 then { s1 with consecutiveRateLimits := 0 }
                else s1
      let s3 := settleResolve s2 screenName
      ({ s3 with activeRequests := s3.activeRequests - 1 }, .resolved v)
  | (s1, .rejected e) =>
      let s2 := settleReject s1 screenName
      ({ s2 with activeRequests := s2.activeRequests - 1 }, .rejected e)

/-! ### Aggregator measurements (for the statistics invariant) -/

/-- The usernames the aggregator holds for a value: the `Set` in
`locationStats.get(v)`, empty when absent. -/
def statsUsers (stats : Stats) (v : String) : List String :=
  match AList.findKey stats v with
  | none => []
  | some names => names

/-- The aggregator count for a value (`usernames.size`, as persisted by
`saveCache` at content.js lines 222-225). -/
def statsCount (stats : Stats) (v : String) : Nat := (statsUsers stats v).length

/-- The distinct keys whose live (unexpired, present) cache entry holds
value `v`, in cache order. -/
def liveUsers (c : Cache) (v : String) (now : Nat) : List String :=
  (c.filter (fun p => decide (p.2.expiry > now) && decide (p.2.location = some v))).map
    Prod.fst

/-- The number of distinct keys whose live cache entry holds value `v`
(distinct because a JavaScript `Map` holds one entry per key). -/
def liveCount (c : Cache) (v : String) (now : Nat) : Nat := (liveUsers c v now).length

/-- One cache write, as performed on the resolution path. -/
structure CacheOp where
  username : String
  location : Option String
  time : Nat
deriving Repr, DecidableEq

/-- A sequence of resolution results written through `saveCacheEntry`. -/
def applyOps (s : ResolverState) (ops : List CacheOp) : ResolverState :=
  ops.foldl (fun st op => saveCacheEntry st op.username op.location op.time) s

/-! ### Generic association-list lemmas -/

theorem AList.findKey_setKey_self {α : Type} (m : AList α) (k : String) (v : α) :
    AList.findKey (AList.setKey m k v) k = some v := by
  induction m with
  | nil => simp [AList.setKey, AList.findKey]
  | cons p rest ih =>
      by_cases h : p.1 = k
      · simp [AList.setKey, AList.findKey, h]
      · simp [AList.setKey, AList.findKey, h, ih]

theorem AList.findKey_setKey_ne {α : Type} (m : AList α) (k k' : String) (v : α)
    (h : k ≠ k') : AList.findKey (AList.setKey m k v) k' = AList.findKey m k' := by
  induction m with
  | nil => simp [AList.setKey, AList.findKey, h]
  | cons p rest ih =>
      by_cases hp : p.1 = k
      · simp [AList.setKey, AList.findKey, hp, h]
      · simp [AList.setKey, AList.findKey, hp, ih]

theorem AList.setKey_of_not_mem {α : Type} (m : AList α) (k : String) (v : α)
    (h : k ∉ AList.keys m) : AList.setKey m k v = m ++ [(k, v)] := by
  induction m with
  | nil => simp [AList.setKey]
  | cons p rest ih =>
      simp only [AList.keys, List.map_cons, List.mem_cons] at h
      push_neg at h
      simp [AList.setKey, Ne.symm h.1, ih (by simpa [AList.keys] using h.2)]

theorem AList.findKey_none_of_not_mem {α : Type} (m : AList α) (k : String)
    (h : k ∉ AList.keys m) : AList.findKey m k = none := by
  induction m with
  | nil => simp [AList.findKey]
  | cons p rest ih =>
      simp only [AList.keys, List.map_cons, List.mem_cons] at h
      push_neg at h
      simp [AList.findKey, Ne.symm h.1, ih (by simpa [AList.keys] using h.2)]

theorem AList.findKey_delKey_of_nodup {α : Type} (m : AList α) (k : String)
    (h : (AList.keys m).Nodup) : AList.findKey (AList.delKey m k) k = none := by
  induction m with
  | nil => simp [AList.delKey, AList.findKey]
  | cons p rest ih =>
      simp only [AList.keys, List.map_cons, List.nodup_cons] at h
      by_cases hp : p.1 = k
      · subst hp
        simpa [AList.delKey] using AList.findKey_none_of_not_mem rest p.1 h.1
      · simp [AList.delKey, AList.findKey, hp, ih h.2]

theorem AList.keys_setKey_of_mem {α : Type} (m : AList α) (k : String) (v : α)
    (h : k ∈ AList.keys m) : AList.keys (AList.setKey m k v) = AList.keys m := by
  induction m with
  | nil => simp [AList.keys] at h
  | cons p rest ih =>
      by_cases hp : p.1 = k
      · simp [AList.setKey, hp, AList.keys]
      · simp only [AList.keys, List.map_cons, List.mem_cons] at h
        have hr : k ∈ AList.keys rest := by
          rcases h with h | h
          · exact absurd h.symm hp
          · simpa [AList.keys] using h
        have hrest := ih hr
        simp only [AList.keys] at hrest
        simp [AList.setKey, hp, AList.keys, hrest]

theorem AList.nodup_keys_setKey {α : Type} (m : AList α) (k : String) (v : α)
    (h : (AList.keys m).Nodup) : (AList.keys (AList.setKey m k v)).Nodup := by
  by_cases hk : k ∈ AList.keys m
  · rw [AList.keys_setKey_of_mem m k v hk]; exact h
  · rw [AList.setKey_of_not_mem m k v hk]
    simp only [AList.keys, List.map_append, List.map_cons, List.map_nil]
    refine List.Nodup.append h (by simp) ?_
    simpa [AList.keys, List.disjoint_right] using hk

/-! ### Claim C7: negative-cache expiry is strictly shorter -/

/-- Claim C7: for every key and instant, the expiry computed for a cached
absent result is strictly earlier than the expiry computed for any present
result at the same instant; the reference configuration uses 1 day for
negative entries and 30 days for positive entries. -/
theorem C7_negative_ttl_strictly_shorter (v : String) (now : Nat) :
    calculateExpiry none now < calculateExpiry (some v) now ∧
    calculateExpiry none now = now + 1 * msPerDay ∧
    calculateExpiry (some v) now = now + 30 * msPerDay := by
  refine ⟨?_, ?_, ?_⟩ <;>
    simp [calculateExpiry, NULL_CACHE_EXPIRY_DAYS, CACHE_EXPIRY_DAYS, msPerDay]

/-! ### Claim C3: TTL cache put/get semantics with lazy eviction -/

/-- Claim C3: after `saveCacheEntry` stores value `v` at time `now` with
expiry `now + TTL`, the cache check in `getLocation` at any `now'` strictly
before the expiry returns the entry holding `v` (never a stale value), and
at any `now'` at or after the expiry returns absent and removes the entry
from the cache as a side effect of the read. -/
theorem C3_ttl_cache_get_put (s : ResolverState) (k : String) (v : Option String)
    (now now' : Nat) (hwf : (AList.keys s.locationCache).Nodup) :
    let e := calculateExpiry v now
    let c' := (saveCacheEntry s k v now).locationCache
    (now' < e →
      cacheGet c' k now' = (some { location := v, expiry := e, cachedAt := now }, c')) ∧
    (now' ≥ e →
      (cacheGet c' k now').1 = none ∧
      AList.findKey (cacheGet c' k now').2 k = none) := by
  intro e c'
  have hfind : AList.findKey c' k = some { location := v, expiry := e, cachedAt := now } := by
    simp [c', saveCacheEntry, AList.findKey_setKey_self]
  constructor
  · intro hlt
    simp [cacheGet, hfind, hlt]
  · intro hge
    have hnodup : (AList.keys c').Nodup := by
      simp only [c', saveCacheEntry]
      exact AList.nodup_keys_setKey s.locationCache k _ hwf
    have hnotlt : ¬ ((⟨v, e, now⟩ : CacheEntry).expiry > now') := by
      simpa using hge
    constructor
    · simp [cacheGet, hfind, hnotlt]
    · simp only [cacheGet, hfind]
      simp only [hnotlt, if_false]
      exact AList.findKey_delKey_of_nodup c' k hnodup

/-- Witness for C3 at a concrete input: key cached at time 0 with value
"France" is returned one millisecond before its expiry and evicted exactly
at its expiry. -/
theorem C3_ttl_cache_get_put_witness :
    (cacheGet (saveCacheEntry initState "alice" (some "France") 0).locationCache
        "alice" 2591999999 =
      (some { location := some "France", expiry := 2592000000, cachedAt := 0 },
        (saveCacheEntry initState "alice" (some "France") 0).locationCache)) ∧
    ((cacheGet (saveCacheEntry initState "alice" (some "France") 0).locationCache
        "alice" 2592000000).1 = none ∧
      AList.findKey (cacheGet (saveCacheEntry initState "alice" (some "France") 0).locationCache
        "alice" 2592000000).2 "alice" = none) := by
  constructor
  · exact (C3_ttl_cache_get_put initState "alice" (some "France") 0 2591999999
      (by decide)).1 (by decide)
  · exact (C3_ttl_cache_get_put initState "alice" (some "France") 0 2592000000
      (by decide)).2 (by decide)

/-! ### Claim C4: timeouts and rate-limited responses are never cached -/

/-- Claim C4: a task that times out waiting for a remote answer resolves
with absence (null) rather than rejecting and writes nothing to the cache;
a response flagged as rate-limited is likewise never written to the
cache — in both cases the whole cache, hence the entry for that key, is
unchanged, so the key remains retryable. -/
theorem C4_timeout_rate_limit_not_cached (s : ResolverState) (screenName : String)
    (location : Option String) (now : Nat) :
    (makeLocationRequest s screenName .timeout now).2 = .resolved none ∧
    (makeLocationRequest s screenName .timeout now).1.locationCache = s.locationCache ∧
    (makeLocationRequest s screenName (.response location true) now).2 =
      .resolved (jsOrNull location) ∧
    (makeLocationRequest s screenName (.response location true) now).1.locationCache =
      s.locationCache := by
  exact ⟨rfl, rfl, rfl, rfl⟩

/-! ### Claim C10: the request promise always resolves, never rejects -/

/-- Claim C10: `makeLocationRequest` settles every promise by resolving —
with the remote value, or with null on an empty answer or on timeout — and
never rejects; one drain dispatch therefore always settles its task
through `resolve`, and the head of `processRequestQueue` either performs
the synchronous rate-limit purge (the only place a queued task's reject
callback runs) or leaves the queue and the pending registrations
untouched. -/
theorem C10_always_resolves (s : ResolverState) (screenName : String)
    (ev : RemoteEvent) (now : Nat) :
    (∃ v, (makeLocationRequest s screenName ev now).2 = .resolved v) ∧
    (∀ msg, (makeLocationRequest s screenName ev now).2 ≠ .rejected msg) ∧
    (makeLocationRequest s screenName .timeout now).2 = .resolved none ∧
    (makeLocationRequest s screenName (.response none false) now).2 = .resolved none ∧
    (makeLocationRequest s screenName (.response (some "") false) now).2 =
      .resolved none ∧
    (∃ v, (drainDispatchStep s screenName ev now).2 = .resolved v) ∧
    (∀ msg, (drainDispatchStep s screenName ev now).2 ≠ .rejected msg) ∧
    (∀ nowSec : Nat,
      (∃ ts d, (processRequestQueueStep s nowSec).2 = .rateLimitedPurge ts d) ∨
      ((processRequestQueueStep s nowSec).1.requestQueue = s.requestQueue ∧
       (processRequestQueueStep s nowSec).1.pendingLocationRequests =
         s.pendingLocationRequests)) := by
  refine ⟨?_, ?_, rfl, rfl, rfl, ?_, ?_, ?_⟩
  · cases ev with
    | response loc isRL => exact ⟨jsOrNull loc, rfl⟩
    | timeout => exact ⟨none, rfl⟩
  · intro msg
    cases ev <;> simp [makeLocationRequest]
  · cases ev with
    | response loc isRL =>
        exact ⟨jsOrNull loc, by simp only [drainDispatchStep, makeLocationRequest]⟩
    | timeout =>
        exact ⟨none, by simp only [drainDispatchStep, makeLocationRequest]⟩
  · intro msg
    cases ev <;> simp [drainDispatchStep, makeLocationRequest]
  · intro nowSec
    by_cases h1 : (s.isProcessingQueue || s.requestQueue.isEmpty) = true
    · right
      simp [processRequestQueueStep, h1]
    · by_cases h2 : isRateLimited s nowSec = true
      · left
        exact ⟨s.requestQueue, min ((s.rateLimitResetTime - nowSec) * 1000) 60000,
          by simp [processRequestQueueStep, h1, h2]⟩
      · right
        by_cases h3 : s.rateLimitResetTime > 0 <;>
          simp [processRequestQueueStep, h1, h2, h3, resetRateLimit]

/-! ### Claim C9: display text derivation -/

/-- Counterexample to claim C9 as stated: for the unmapped value
"Atlantis" the display text is the raw value wrapped in parentheses,
"(Atlantis)", not the raw value "Atlantis" itself. -/
theorem C9_counterexample :
    getCountryFlag (some "Atlantis") = none ∧
    (createLocationInfo (some "Atlantis")).displayText = some "(Atlantis)" ∧
    (createLocationInfo (some "Atlantis")).displayText ≠ some "Atlantis" := by
  refine ⟨by decide, by decide, by decide⟩

/-- Claim C9 as amended: `displayText` is derived deterministically from
the resolved value — when `getCountryFlag` has a mapping, `displayText` is
the mapped flag string; when no mapping exists, it falls back to the raw
value wrapped in parentheses (not the bare raw value); for a null (or
empty, falsy) value all fields are absent. -/
theorem C9_display_derivation (v f : String) (hv : v ≠ "") :
    (getCountryFlag (some v) = some f →
      createLocationInfo (some v) =
        { location := some v, flag := some f, displayText := some f }) ∧
    (getCountryFlag (some v) = none →
      createLocationInfo (some v) =
        { location := some v, flag := none,
          displayText := some ("(" ++ v ++ ")") }) ∧
    createLocationInfo none = { location := none, flag := none, displayText := none } := by
  refine ⟨?_, ?_, rfl⟩ <;> intro h <;> simp [createLocationInfo, hv, h]

/-- Witness for C9 at concrete inputs: "France" maps to its flag, while
the unmapped "Atlantis" falls back to the parenthesised raw value. -/
theorem C9_display_derivation_witness :
    createLocationInfo (some "France") =
      { location := some "France", flag := some "🇫🇷", displayText := some "🇫🇷" } ∧
    createLocationInfo (some "Atlantis") =
      { location := some "Atlantis", flag := none,
        displayText := some ("(" ++ "Atlantis" ++ ")") } := by
  constructor
  · exact (C9_display_derivation "France" "🇫🇷" (by decide)).1 (by decide)
  · exact (C9_display_derivation "Atlantis" "x" (by decide)).2.1 (by decide)

/-! ### Claim C1: exponential backoff on throttling signals -/

/-- Counterexample to claim C1 as stated: the handler assigns
`max(apiResetTime, exponentialResetTime)` without clamping to the previous
window, so a second signal whose remote-reported reset time is small
shrinks a window that an earlier, larger remote report had established:
signal 1 at second 1000 with remote reset 100000 sets the window to
100000; signal 2 at second 1001 with remote reset 0 re-sets it to
1001 + 600 = 1601 < 100000. -/
theorem C1_counterexample :
    (handleRateLimitInfo initState 100000 1000).rateLimitResetTime = 100000 ∧
    (handleRateLimitInfo (handleRateLimitInfo initState 100000 1000) 0 1001).rateLimitResetTime
      = 1601 ∧
    (handleRateLimitInfo (handleRateLimitInfo initState 100000 1000) 0 1001).rateLimitResetTime
      < (handleRateLimitInfo initState 100000 1000).rateLimitResetTime := by
  refine ⟨by decide, by decide, by decide⟩

/-- Claim C1 as amended: every throttling signal increments
`consecutiveRateLimits` and sets `rateLimitResetTime` to the maximum of
the remote-reported reset time and now plus the exponential wait
`BASE_BACKOFF_MINUTES * 2 ^ (hits - 1)` minutes, so the window never falls
below the exponential floor; across consecutive signals (with a
non-decreasing clock) the window is monotonically non-decreasing provided
each signal's remote-reported reset time does not exceed its locally
computed exponential reset time — a later signal whose remote report is
smaller can shrink a window that an earlier, larger remote report had
established. -/
theorem C1_backoff_behavior (s : ResolverState) (api now api' now' : Nat)
    (hclock : now ≤ now')
    (hapi : api ≤ now + BASE_BACKOFF_MINUTES * 2 ^ s.consecutiveRateLimits * 60) :
    (handleRateLimitInfo s api now).consecutiveRateLimits =
      s.consecutiveRateLimits + 1 ∧
    (handleRateLimitInfo s api now).rateLimitResetTime =
      max api (now + BASE_BACKOFF_MINUTES * 2 ^ s.consecutiveRateLimits * 60) ∧
    now + BASE_BACKOFF_MINUTES * 2 ^ s.consecutiveRateLimits * 60 ≤
      (handleRateLimitInfo s api now).rateLimitResetTime ∧
    (handleRateLimitInfo s api now).rateLimitResetTime ≤
      (handleRateLimitInfo (handleRateLimitInfo s api now) api' now').rateLimitResetTime := by
  refine ⟨rfl, rfl, ?_, ?_⟩
  · simp [handleRateLimitInfo]
  · have h1 : (handleRateLimitInfo s api now).rateLimitResetTime =
        now + BASE_BACKOFF_MINUTES * 2 ^ s.consecutiveRateLimits * 60 := by
      simp only [handleRateLimitInfo, Nat.add_sub_cancel]
      exact Nat.max_eq_right hapi
    have h2 : now' + BASE_BACKOFF_MINUTES * 2 ^ (s.consecutiveRateLimits + 1) * 60 ≤
        (handleRateLimitInfo (handleRateLimitInfo s api now) api' now').rateLimitResetTime := by
      simp only [handleRateLimitInfo, Nat.add_sub_cancel]
      exact Nat.le_max_right _ _
    refine le_trans ?_ h2
    rw [h1]
    have hp : 2 ^ s.consecutiveRateLimits ≤ 2 ^ (s.consecutiveRateLimits + 1) :=
      Nat.pow_le_pow_right (by norm_num) (Nat.le_succ _)
    exact Nat.add_le_add hclock
      (Nat.mul_le_mul_right 60 (Nat.mul_le_mul_left BASE_BACKOFF_MINUTES hp))

/-- Witness for C1 at concrete inputs: starting from zero consecutive
hits, two signals at seconds 1000 and 1002 with remote-reported reset
times 0 set the window to 1300 and then 1602. -/
theorem C1_backoff_behavior_witness :
    (handleRateLimitInfo initState 0 1000).consecutiveRateLimits = 0 + 1 ∧
    (handleRateLimitInfo initState 0 1000).rateLimitResetTime =
      max 0 (1000 + BASE_BACKOFF_MINUTES * 2 ^ 0 * 60) ∧
    1000 + BASE_BACKOFF_MINUTES * 2 ^ 0 * 60 ≤
      (handleRateLimitInfo initState 0 1000).rateLimitResetTime ∧
    (handleRateLimitInfo initState 0 1000).rateLimitResetTime ≤
      (handleRateLimitInfo (handleRateLimitInfo initState 0 1000) 0 1002).rateLimitResetTime :=
  C1_backoff_behavior initState 0 1000 0 1002 (by decide) (by decide)

/-! ### Claim C6: drain-loop rate-limit purge and recovery -/

/-- Counterexample to claim C6 as stated: `processRequestQueue` returns at
its guard when the queue is empty (or a drain is already running), so a
run after the window has lapsed does not clear the backoff state: with an
empty queue, `rateLimitResetTime = 5` and `now = 10 ≥ 5`, the state is
returned unchanged with the counter still at 3. -/
theorem C6_counterexample :
    processRequestQueueStep
        { initState with rateLimitResetTime := 5, consecutiveRateLimits := 3 } 10 =
      ({ initState with rateLimitResetTime := 5, consecutiveRateLimits := 3 },
        .earlyReturn) ∧
    (processRequestQueueStep
        { initState with rateLimitResetTime := 5, consecutiveRateLimits := 3 }
        10).1.rateLimitResetTime ≠ 0 ∧
    (processRequestQueueStep
        { initState with rateLimitResetTime := 5, consecutiveRateLimits := 3 }
        10).1.consecutiveRateLimits ≠ 0 := by
  refine ⟨by decide, by decide, by decide⟩

/-- Claim C6 as amended: provided the queue is nonempty and no drain is
already in progress, a run of `processRequestQueue` while
`now < rateLimitResetTime` synchronously rejects every currently queued
task with the rate-limited error (emptying the queue) and schedules a
re-check after `min((resetAt - now) * 1000, 60000)` milliseconds; a run
after the window has lapsed (`rateLimitResetTime > 0` and
`now ≥ rateLimitResetTime`) clears `rateLimitResetTime` and resets
`consecutiveRateLimits` to 0. -/
theorem C6_drain_rate_limit_handling (s : ResolverState) (nowSec : Nat)
    (hproc : s.isProcessingQueue = false) (hne : s.requestQueue ≠ []) :
    (nowSec < s.rateLimitResetTime →
      processRequestQueueStep s nowSec =
        ({ s with requestQueue := [],
                  pendingLocationRequests :=
                    s.requestQueue.foldl (fun p k => p.erase k)
                      s.pendingLocationRequests },
         .rateLimitedPurge s.requestQueue
           (min ((s.rateLimitResetTime - nowSec) * 1000) 60000))) ∧
    (s.rateLimitResetTime > 0 → s.rateLimitResetTime ≤ nowSec →
      processRequestQueueStep s nowSec = (resetRateLimit s, .proceed) ∧
      (processRequestQueueStep s nowSec).1.rateLimitResetTime = 0 ∧
      (processRequestQueueStep s nowSec).1.consecutiveRateLimits = 0) := by
  have hguard : (s.isProcessingQueue || s.requestQueue.isEmpty) = false := by
    simp [hproc, List.isEmpty_iff, hne]
  constructor
  · intro hlt
    have hnz : s.rateLimitResetTime ≠ 0 := by omega
    have hrl : isRateLimited s nowSec = true := by
      simp [isRateLimited, hnz, hlt]
    simp [processRequestQueueStep, hguard, hrl]
  · intro hpos hle
    have hrl : isRateLimited s nowSec = false := by
      simp only [isRateLimited]
      split
      · rfl
      · simpa using hle
    refine ⟨?_, ?_, ?_⟩ <;> simp [processRequestQueueStep, hguard, hrl, hpos, resetRateLimit]

/-- Witness for C6 at concrete inputs: with one queued task for "bob",
a run at second 5 during a window ending at second 1000 purges the queue
and schedules a 60-second re-check, and a run at second 10 after a window
that ended at second 5 performs the full recovery reset. -/
theorem C6_drain_rate_limit_handling_witness :
    (processRequestQueueStep
        { initState with requestQueue := ["bob"], pendingLocationRequests := ["bob"],
                         rateLimitResetTime := 1000, consecutiveRateLimits := 2 } 5 =
      ({ initState with requestQueue := [], pendingLocationRequests := [],
                        rateLimitResetTime := 1000, consecutiveRateLimits := 2 },
        .rateLimitedPurge ["bob"] 60000)) ∧
    (processRequestQueueStep
        { initState with requestQueue := ["bob"], pendingLocationRequests := ["bob"],
                         rateLimitResetTime := 5, consecutiveRateLimits := 2 }
        10).1.rateLimitResetTime = 0 ∧
    (processRequestQueueStep
        { initState with requestQueue := ["bob"], pendingLocationRequests := ["bob"],
                         rateLimitResetTime := 5, consecutiveRateLimits := 2 }
        10).1.consecutiveRateLimits = 0 := by
  refine ⟨?_, ?_, ?_⟩
  · have h := (C6_drain_rate_limit_handling
      { initState with requestQueue := ["bob"], pendingLocationRequests := ["bob"],
                       rateLimitResetTime := 1000, consecutiveRateLimits := 2 } 5
      (by decide) (by decide)).1 (by decide)
    simpa using h
  · exact ((C6_drain_rate_limit_handling
      { initState with requestQueue := ["bob"], pendingLocationRequests := ["bob"],
                       rateLimitResetTime := 5, consecutiveRateLimits := 2 } 10
      (by decide) (by decide)).2 (by decide) (by decide)).2.1
  · exact ((C6_drain_rate_limit_handling
      { initState with requestQueue := ["bob"], pendingLocationRequests := ["bob"],
                       rateLimitResetTime := 5, consecutiveRateLimits := 2 } 10
      (by decide) (by decide)).2 (by decide) (by decide)).2.2

/-! ### The synchronous drain prefix: helper lemmas -/

/-- The synchronous drain prefix never grows the queue: it leaves it
unchanged, pops its head for dispatch, or empties it in the purge. -/
theorem processRequestQueueSync_length (s : ResolverState) (now : Nat) :
    (processRequestQueueSync s now).1.requestQueue.length ≤ s.requestQueue.length := by
  unfold processRequestQueueSync processRequestQueueStep
  by_cases h1 : (s.isProcessingQueue || s.requestQueue.isEmpty) = true
  · simp [h1]
  · have h1' : s.isProcessingQueue = false ∧ s.requestQueue.isEmpty = false := by
      constructor <;> revert h1 <;> cases s.isProcessingQueue <;>
        cases s.requestQueue.isEmpty <;> simp
    by_cases h2 : isRateLimited s (now / 1000) = true
    · simp [h1, h2]
    · by_cases h3 : s.rateLimitResetTime > 0 <;>
        · cases hq : s.requestQueue with
          | nil => simp [h1'.1, h2, h3, resetRateLimit, hq]
          | cons head rest =>
              by_cases h4 : s.activeRequests < MAX_CONCURRENT_REQUESTS
              · by_cases h5 : now - s.lastRequestTime < MIN_REQUEST_INTERVAL
                · simp [h1'.1, h2, h3, resetRateLimit, hq, h4, h5]
                · simp [h1'.1, h2, h3, resetRateLimit, hq, h4, h5]
              · simp [h1'.1, h2, h3, resetRateLimit, hq, h4]

/-- When no rate-limit purge can intervene (a drain is already in
progress, or no window is active), the synchronous drain prefix preserves
the pending registrations and the cache, never purges, and conserves the
tasks for every key: a key's queued occurrences plus its just-dispatched
occurrence equal its occurrences in the incoming queue. -/
theorem processRequestQueueSync_no_purge (s : ResolverState) (now : Nat) (k : String)
    (hsafe : s.isProcessingQueue = true ∨ isRateLimited s (now / 1000) = false) :
    (processRequestQueueSync s now).1.pendingLocationRequests =
      s.pendingLocationRequests ∧
    (processRequestQueueSync s now).1.locationCache = s.locationCache ∧
    (∀ ts d, (processRequestQueueSync s now).2 ≠ .purged ts d) ∧
    (processRequestQueueSync s now).1.requestQueue.count k +
      (if (processRequestQueueSync s now).2 = .dispatched k then 1 else 0) =
      s.requestQueue.count k := by
  unfold processRequestQueueSync processRequestQueueStep
  by_cases h1 : (s.isProcessingQueue || s.requestQueue.isEmpty) = true
  · simp [h1]
  · have h1' : s.isProcessingQueue = false ∧ s.requestQueue.isEmpty = false := by
      constructor <;> revert h1 <;> cases s.isProcessingQueue <;>
        cases s.requestQueue.isEmpty <;> simp
    have h2 : isRateLimited s (now / 1000) = false := by
      rcases hsafe with hsafe | hsafe
      · rw [hsafe] at h1'; exact absurd h1'.1 (by simp)
      · exact hsafe
    have h2' : ¬ isRateLimited s (now / 1000) = true := by simp [h2]
    by_cases h3 : s.rateLimitResetTime > 0 <;>
      · cases hq : s.requestQueue with
        | nil => simp [h1'.1, h2', h3, resetRateLimit, hq]
        | cons head rest =>
            by_cases h4 : s.activeRequests < MAX_CONCURRENT_REQUESTS
            · by_cases h5 : now - s.lastRequestTime < MIN_REQUEST_INTERVAL
              · simp [h1'.1, h2', h3, resetRateLimit, hq, h4, h5]
              · by_cases hhk : head = k <;>
                  simp [h1'.1, h2', h3, resetRateLimit, hq, h4, h5, hhk, List.count_cons]
            · simp [h1'.1, h2', h3, resetRateLimit, hq, h4]

/-- For a key that is absent from the cache, not pending, with queue
room, the entry step pushes the task, runs the synchronous drain prefix,
and then registers the pending promise. -/
theorem getLocationEntry_fresh (s : ResolverState) (key : String) (now : Nat)
    (hc : AList.findKey s.locationCache key = none)
    (hp : key ∉ s.pendingLocationRequests)
    (hq : s.requestQueue.length < MAX_QUEUE_SIZE) :
    getLocationEntry s key now =
      ({ (processRequestQueueSync { s with requestQueue := s.requestQueue ++ [key] }
            now).1 with
          pendingLocationRequests := key ::
            (processRequestQueueSync { s with requestQueue := s.requestQueue ++ [key] }
              now).1.pendingLocationRequests },
       .enqueued
         (processRequestQueueSync { s with requestQueue := s.requestQueue ++ [key] }
           now).2) := by
  have hcg : cacheGet s.locationCache key now = (none, s.locationCache) := by
    simp [cacheGet, hc]
  have hnotfull : ¬ s.requestQueue.length ≥ MAX_QUEUE_SIZE := by omega
  simp [getLocationEntry, hcg, hp, hnotfull]

/-! ### Claim C5: bounded queue with explicit queue-full rejection -/

/-- Claim C5: the entry step of `getLocation` never grows the queue past
`MAX_QUEUE_SIZE` (50), and when it finds `queue.length ≥ MAX_QUEUE_SIZE`
for a key that is neither cached nor pending, the enqueue attempt fails
immediately without appending, and the caller receives the explicit
all-null result rather than hanging. -/
theorem C5_queue_bounded (s : ResolverState) (screenName : String) (now : Nat)
    (hnc : AList.findKey s.locationCache screenName = none)
    (hnp : screenName ∉ s.pendingLocationRequests) :
    (s.requestQueue.length ≤ MAX_QUEUE_SIZE →
      (getLocationEntry s screenName now).1.requestQueue.length ≤ MAX_QUEUE_SIZE) ∧
    (s.requestQueue.length ≥ MAX_QUEUE_SIZE →
      getLocationEntry s screenName now =
        (s, .queueFull { location := none, flag := none, displayText := none })) := by
  have hcg : cacheGet s.locationCache screenName now = (none, s.locationCache) := by
    simp [cacheGet, hnc]
  constructor
  · intro hle
    by_cases hfull : s.requestQueue.length ≥ MAX_QUEUE_SIZE
    · simpa [getLocationEntry, hcg, hnp, hfull] using hle
    · have hlt : s.requestQueue.length < MAX_QUEUE_SIZE := by omega
      rw [getLocationEntry_fresh s screenName now hnc hnp hlt]
      have hlen := processRequestQueueSync_length
        { s with requestQueue := s.requestQueue ++ [screenName] } now
      simp only [List.length_append, List.length_singleton] at hlen
      simpa using Nat.le_trans hlen (by omega)
  · intro hfull
    simp [getLocationEntry, hcg, hnp, hfull]

/-- Witness for C5 at a concrete input: with 50 queued tasks, the 51st
enqueue attempt for "bob" returns the all-null result and leaves the
state unchanged. -/
theorem C5_queue_bounded_witness :
    getLocationEntry { initState with requestQueue := List.replicate 50 "u" } "bob" 0 =
      ({ initState with requestQueue := List.replicate 50 "u" },
        .queueFull { location := none, flag := none, displayText := none }) ∧
    ({ initState with requestQueue := List.replicate 50 "u" } :
        ResolverState).requestQueue.length ≤ MAX_QUEUE_SIZE := by
  constructor
  · exact (C5_queue_bounded { initState with requestQueue := List.replicate 50 "u" }
      "bob" 0 (by decide) (by decide)).2 (by decide)
  · exact le_of_eq (by decide)

/-! ### Claim C2: single-flight deduplication -/

/-- An entry step for a key that is absent from the cache but already
pending joins the shared promise without touching the state. -/
theorem getLocationEntry_joined (s : ResolverState) (key : String) (now : Nat)
    (hc : AList.findKey s.locationCache key = none)
    (hp : key ∈ s.pendingLocationRequests) :
    getLocationEntry s key now = (s, .joinedPending) := by
  simp [getLocationEntry, cacheGet, hc, hp]

/-- Repeated entry steps for a pending key all join and leave the state
fixed. -/
theorem runEntries_replicate_joined (s : ResolverState) (key : String) (now n : Nat)
    (hc : AList.findKey s.locationCache key = none)
    (hp : key ∈ s.pendingLocationRequests) :
    runEntries s (List.replicate n key) now = (s, List.replicate n .joinedPending) := by
  induction n with
  | zero => simp [runEntries]
  | succ m ih =>
      simp only [List.replicate_succ, runEntries, getLocationEntry_joined s key now hc hp, ih]

/-- The expiry computed by `calculateExpiry` always lies strictly in the
future. -/
theorem calculateExpiry_gt (v : Option String) (now : Nat) :
    now < calculateExpiry v now := by
  cases v <;> simp [calculateExpiry, NULL_CACHE_EXPIRY_DAYS, CACHE_EXPIRY_DAYS, msPerDay]

/-- A drain dispatch never touches the cache beyond what
`makeLocationRequest` itself does. -/
theorem drainDispatchStep_cache (s : ResolverState) (key : String) (ev : RemoteEvent)
    (now : Nat) :
    (drainDispatchStep s key ev now).1.locationCache =
      (makeLocationRequest
        { s with activeRequests := s.activeRequests + 1, lastRequestTime := now }
        key ev now).1.locationCache := by
  cases ev with
  | response loc isRL =>
      cases isRL with
      | true =>
          simp only [drainDispatchStep, makeLocationRequest, settleResolve, if_true]
          by_cases h : s.consecutiveRateLimits > 0 <;> simp [h]
      | false =>
          simp only [drainDispatchStep, makeLocationRequest, settleResolve,
            saveCacheEntry, if_false]
          by_cases h : s.consecutiveRateLimits > 0 <;> simp [h]
  | timeout =>
      simp only [drainDispatchStep, makeLocationRequest, settleResolve]
      by_cases h : s.consecutiveRateLimits > 0 <;> simp [h]

/-- The value a drain dispatch settles with is the value
`makeLocationRequest` resolved. -/
theorem drainDispatchStep_val (s : ResolverState) (key : String) (ev : RemoteEvent)
    (now : Nat) :
    (drainDispatchStep s key ev now).2 =
      (makeLocationRequest
        { s with activeRequests := s.activeRequests + 1, lastRequestTime := now }
        key ev now).2 := by
  cases ev <;> rfl

/-- Counterexample to claim C2 as stated: the `processRequestQueue()` call
at content.js line 539 runs synchronously between the queue push (line
528) and `pendingLocationRequests.set` (line 542).  Entering during an
active rate-limit window (reset at second 1000, clock at second 0) with an
idle drain, the purge rejects — settles — the freshly pushed task before
registration (its `reject` wrapper's pending delete is a no-op), and the
already-settled promise is then registered and never removed: the final
state holds a pending registration for "alice" with zero queued tasks and
zero dispatches, and a later caller for "alice" joins the stale settled
promise instead of triggering a new dispatch. -/
theorem C2_counterexample :
    (getLocationEntry { initState with rateLimitResetTime := 1000 } "alice" 0).2 =
      .enqueued (.purged ["alice"] 60000) ∧
    (getLocationEntry { initState with rateLimitResetTime := 1000 }
      "alice" 0).1.requestQueue = [] ∧
    (getLocationEntry { initState with rateLimitResetTime := 1000 }
      "alice" 0).1.pendingLocationRequests = ["alice"] ∧
    (getLocationEntry
      (getLocationEntry { initState with rateLimitResetTime := 1000 } "alice" 0).1
      "alice" 0).2 = .joinedPending := by
  refine ⟨by decide, by decide, by decide, by decide⟩

/-- Claim C2 as amended: single-flight deduplication holds provided the
enqueue-triggered synchronous drain cannot purge — a drain is already in
progress, or no rate-limit window is active at entry.  Then for a key that
is neither cached, nor pending, nor queued, with queue room, any number of
concurrent `getLocation` callers create exactly one task for the key
(still queued, or already dispatched when it was the head and pacing
allowed) and exactly one pending registration — the first caller
enqueues, every later caller joins the same shared promise — the purge
outcome is excluded and the cache is untouched; settling the shared
promise (success or failure) removes the pending registration; and once
the dispatched task settles with value `v`, a joining caller's post-wait
cache recheck yields exactly the winning caller's result
`createLocationInfo v`, so all callers observe the same outcome.  In the
excluded interleaving the purge settles the fresh task before
registration and the settled promise is registered permanently (see the
counterexample). -/
theorem C2_single_flight (s : ResolverState) (key : String) (n : Nat) (now : Nat)
    (hc : AList.findKey s.locationCache key = none)
    (hp : key ∉ s.pendingLocationRequests)
    (hqk : key ∉ s.requestQueue)
    (hq : s.requestQueue.length < MAX_QUEUE_SIZE)
    (hsafe : s.isProcessingQueue = true ∨ isRateLimited s (now / 1000) = false) :
    ∃ d,
      (runEntries s (List.replicate (n + 1) key) now).2 =
        .enqueued d :: List.replicate n .joinedPending ∧
      (∀ ts delay, d ≠ .purged ts delay) ∧
      ((runEntries s (List.replicate (n + 1) key) now).1.requestQueue.count key +
        (if d = .dispatched key then 1 else 0) = 1) ∧
      (runEntries s (List.replicate (n + 1) key) now).1.pendingLocationRequests =
        key :: s.pendingLocationRequests ∧
      (runEntries s (List.replicate (n + 1) key) now).1.locationCache =
        s.locationCache ∧
      (s.pendingLocationRequests.Nodup →
        (runEntries s (List.replicate (n + 1) key) now).1.pendingLocationRequests.Nodup) ∧
      (settleResolve (runEntries s (List.replicate (n + 1) key) now).1
          key).pendingLocationRequests = s.pendingLocationRequests ∧
      (settleReject (runEntries s (List.replicate (n + 1) key) now).1
          key).pendingLocationRequests = s.pendingLocationRequests ∧
      (∀ ev v,
        (drainDispatchStep (runEntries s (List.replicate (n + 1) key) now).1
            key ev now).2 = .resolved v →
        afterWaitRecheck
          (drainDispatchStep (runEntries s (List.replicate (n + 1) key) now).1
            key ev now).1 key v now = createLocationInfo v) := by
  have hsafe' : ({ s with requestQueue := s.requestQueue ++ [key] } :
        ResolverState).isProcessingQueue = true ∨
      isRateLimited { s with requestQueue := s.requestQueue ++ [key] }
        (now / 1000) = false := hsafe
  obtain ⟨hsp, hsc, hnopurge, hcount⟩ := processRequestQueueSync_no_purge
    { s with requestQueue := s.requestQueue ++ [key] } now key hsafe'
  have hfre := getLocationEntry_fresh s key now hc hp hq
  have hpS : key ∈ ({ (processRequestQueueSync
      { s with requestQueue := s.requestQueue ++ [key] } now).1 with
        pendingLocationRequests := key ::
          (processRequestQueueSync { s with requestQueue := s.requestQueue ++ [key] }
            now).1.pendingLocationRequests } : ResolverState).pendingLocationRequests := by
    simp
  have hcS : AList.findKey ({ (processRequestQueueSync
      { s with requestQueue := s.requestQueue ++ [key] } now).1 with
        pendingLocationRequests := key ::
          (processRequestQueueSync { s with requestQueue := s.requestQueue ++ [key] }
            now).1.pendingLocationRequests } : ResolverState).locationCache key = none := by
    show AList.findKey (processRequestQueueSync
      { s with requestQueue := s.requestQueue ++ [key] } now).1.locationCache key = none
    rw [hsc]
    exact hc
  have hrest := runEntries_replicate_joined _ key now n hcS hpS
  have hrun : runEntries s (List.replicate (n + 1) key) now =
      ({ (processRequestQueueSync { s with requestQueue := s.requestQueue ++ [key] }
            now).1 with
          pendingLocationRequests := key ::
            (processRequestQueueSync { s with requestQueue := s.requestQueue ++ [key] }
              now).1.pendingLocationRequests },
       .enqueued (processRequestQueueSync
          { s with requestQueue := s.requestQueue ++ [key] } now).2 ::
         List.replicate n .joinedPending) := by
    simp only [List.replicate_succ, runEntries, hfre, hrest]
  have hpend : (runEntries s (List.replicate (n + 1) key) now).1.pendingLocationRequests =
      key :: s.pendingLocationRequests := by
    rw [hrun]
    show key :: (processRequestQueueSync
      { s with requestQueue := s.requestQueue ++ [key] } now).1.pendingLocationRequests =
      key :: s.pendingLocationRequests
    rw [hsp]
  have hcache5 : (runEntries s (List.replicate (n + 1) key) now).1.locationCache =
      s.locationCache := by
    rw [hrun]
    show (processRequestQueueSync
      { s with requestQueue := s.requestQueue ++ [key] } now).1.locationCache =
      s.locationCache
    rw [hsc]
  refine ⟨(processRequestQueueSync { s with requestQueue := s.requestQueue ++ [key] }
    now).2, ?_, ?_, ?_, hpend, hcache5, ?_, ?_, ?_, ?_⟩
  · rw [hrun]
  · exact hnopurge
  · rw [hrun]
    have h1 : (s.requestQueue ++ [key]).count key = 1 := by
      simp [List.count_append, List.count_eq_zero.mpr hqk]
    exact hcount.trans h1
  · intro hnd
    rw [hpend]
    exact List.nodup_cons.mpr ⟨hp, hnd⟩
  · simp [settleResolve, hpend]
  · simp [settleReject, hpend]
  · intro ev v hres
    rw [drainDispatchStep_val] at hres
    have hdc := drainDispatchStep_cache
      (runEntries s (List.replicate (n + 1) key) now).1 key ev now
    cases ev with
    | timeout =>
        simp only [makeLocationRequest] at hres
        injection hres with hv
        subst hv
        simp only [makeLocationRequest] at hdc
        unfold afterWaitRecheck
        rw [hdc]
        simp [hcache5, hc, createLocationInfo]
    | response loc isRL =>
        simp only [makeLocationRequest] at hres
        injection hres with hv
        subst hv
        cases isRL with
        | true =>
            simp [makeLocationRequest] at hdc
            unfold afterWaitRecheck
            rw [hdc]
            simp [hcache5, hc]
        | false =>
            simp [makeLocationRequest, saveCacheEntry, hcache5] at hdc
            unfold afterWaitRecheck
            rw [hdc]
            simp [AList.findKey_setKey_self, calculateExpiry_gt]

/-- Witness for C2 at a concrete input: three concurrent callers for the
unresolved key "alice", entering with no active rate-limit window, leave
exactly one pending registration, which the settle wrapper removes, and
the cache untouched. -/
theorem C2_single_flight_witness :
    (runEntries initState (List.replicate 3 "alice") 0).1.pendingLocationRequests =
      "alice" :: initState.pendingLocationRequests ∧
    (settleResolve (runEntries initState (List.replicate 3 "alice") 0).1
        "alice").pendingLocationRequests = initState.pendingLocationRequests ∧
    (runEntries initState (List.replicate 3 "alice") 0).1.locationCache =
      initState.locationCache := by
  obtain ⟨d, h1, h2, h3, h4, h5, h6, h7, h8, h9⟩ :=
    C2_single_flight initState "alice" 2 0 (by decide) (by decide) (by decide)
      (by decide) (Or.inr (by decide))
  exact ⟨h4, h7, h5⟩

/-! ### Claim C8: aggregator consistency -/

/-- Appending a fresh cache pair extends the live-user list for `v` by the
new key exactly when the new entry is live and holds `v`. -/
theorem liveUsers_append_entry (c : Cache) (u : String) (e : CacheEntry) (v : String)
    (now : Nat) :
    liveUsers (c ++ [(u, e)]) v now =
      liveUsers c v now ++ (if e.expiry > now ∧ e.location = some v then [u] else []) := by
  by_cases h1 : e.expiry > now <;> by_cases h2 : e.location = some v <;>
    simp [liveUsers, List.filter_append, h1, h2]

/-- Every live user is a key of the cache. -/
theorem liveUsers_subset_keys (c : Cache) (v : String) (now : Nat) :
    ∀ u ∈ liveUsers c v now, u ∈ AList.keys c := by
  intro u hu
  simp only [liveUsers, List.mem_map] at hu
  obtain ⟨p, hp, rfl⟩ := hu
  exact List.mem_map_of_mem Prod.fst (List.mem_of_mem_filter hp)

theorem statsUsers_setKey_self (stats : Stats) (v : String) (names : List String) :
    statsUsers (AList.setKey stats v names) v = names := by
  simp [statsUsers, AList.findKey_setKey_self]

theorem statsUsers_setKey_ne (stats : Stats) (v w : String) (names : List String)
    (h : w ≠ v) : statsUsers (AList.setKey stats w names) v = statsUsers stats v := by
  simp [statsUsers, AList.findKey_setKey_ne _ _ _ _ h]

/-- One `saveCacheEntry` for a fresh key preserves the agreement between
the aggregator's user sets and the live cache keys per value, provided the
new entry is live (or null) and its location is not the empty string. -/
theorem saveCacheEntry_inv (s : ResolverState) (u : String) (loc : Option String)
    (t now : Nat)
    (hfresh : u ∉ AList.keys s.locationCache)
    (hinv : ∀ v, statsUsers s.locationStats v = liveUsers s.locationCache v now)
    (hok : loc = none ∨ ∃ w, loc = some w ∧ w ≠ "" ∧ now < calculateExpiry (some w) t) :
    (∀ v, statsUsers (saveCacheEntry s u loc t).locationStats v =
        liveUsers (saveCacheEntry s u loc t).locationCache v now) ∧
    AList.keys (saveCacheEntry s u loc t).locationCache =
      AList.keys s.locationCache ++ [u] := by
  have hset : AList.setKey s.locationCache u
      { location := loc, expiry := calculateExpiry loc t, cachedAt := t } =
      s.locationCache ++
        [(u, { location := loc, expiry := calculateExpiry loc t, cachedAt := t })] :=
    AList.setKey_of_not_mem _ _ _ hfresh
  have hkeys : AList.keys (saveCacheEntry s u loc t).locationCache =
      AList.keys s.locationCache ++ [u] := by
    simp [saveCacheEntry, hset, AList.keys]
  refine ⟨?_, hkeys⟩
  intro v
  have hlive : liveUsers (saveCacheEntry s u loc t).locationCache v now =
      liveUsers s.locationCache v now ++
        (if calculateExpiry loc t > now ∧ loc = some v then [u] else []) := by
    simp only [saveCacheEntry, hset]
    exact liveUsers_append_entry s.locationCache u _ v now
  rcases hok with hnone | ⟨w, hw, hwne, hwlive⟩
  · subst hnone
    have hstats : (saveCacheEntry s u none t).locationStats = s.locationStats := by
      simp [saveCacheEntry]
    rw [hstats, hlive]
    simp [hinv v]
  · subst hw
    have hstats : (saveCacheEntry s u (some w) t).locationStats =
        updateStats s.locationStats u (some w) := by
      simp [saveCacheEntry]
    have hnotin : u ∉ statsUsers s.locationStats w := fun hu =>
      hfresh (liveUsers_subset_keys s.locationCache w now u ((hinv w) ▸ hu))
    have hupd : updateStats s.locationStats u (some w) =
        AList.setKey s.locationStats w (statsUsers s.locationStats w ++ [u]) := by
      cases hfind : AList.findKey s.locationStats w with
      | none => simp [updateStats, hwne, hfind, statsUsers]
      | some names =>
          have hnames : statsUsers s.locationStats w = names := by
            simp [statsUsers, hfind]
          have hun : u ∉ names := hnames ▸ hnotin
          simp [updateStats, hwne, hfind, hun, hnames]
    rw [hstats, hupd, hlive]
    by_cases hvw : w = v
    · subst hvw
      rw [statsUsers_setKey_self]
      simp [← hinv w, hwlive]
    · rw [statsUsers_setKey_ne _ _ _ _ hvw]
      have hcond : ¬ (calculateExpiry (some w) t > now ∧ some w = some v) := by
        simp [hvw]
      rw [if_neg hcond]
      simp [hinv v]

/-- Folding fresh, live writes through `saveCacheEntry` preserves the
aggregator/live-cache agreement. -/
theorem applyOps_inv (now : Nat) : ∀ (ops : List CacheOp) (s : ResolverState),
    (∀ v, statsUsers s.locationStats v = liveUsers s.locationCache v now) →
    (∀ op ∈ ops, op.username ∉ AList.keys s.locationCache) →
    (ops.map CacheOp.username).Nodup →
    (∀ op ∈ ops, op.location = none ∨
      ∃ w, op.location = some w ∧ w ≠ "" ∧ now < calculateExpiry (some w) op.time) →
    ∀ v, statsUsers (applyOps s ops).locationStats v =
      liveUsers (applyOps s ops).locationCache v now := by
  intro ops
  induction ops with
  | nil => intro s hinv _ _ _ v; simpa [applyOps] using hinv v
  | cons op rest ih =>
      intro s hinv hfresh hnodup hok v
      obtain ⟨hstep, hkeys⟩ := saveCacheEntry_inv s op.username op.location op.time now
        (hfresh op (by simp)) hinv (hok op (by simp))
      have happly : applyOps s (op :: rest) =
          applyOps (saveCacheEntry s op.username op.location op.time) rest := rfl
      rw [happly]
      simp only [List.map_cons, List.nodup_cons] at hnodup
      refine ih (saveCacheEntry s op.username op.location op.time) hstep ?_ hnodup.2 ?_ v
      · intro op' hop'
        rw [hkeys]
        simp only [List.mem_append, List.mem_singleton]
        push_neg
        refine ⟨hfresh op' (by simp [hop']), ?_⟩
        intro heq
        exact hnodup.1 (heq ▸ List.mem_map_of_mem CacheOp.username hop')
      · intro op' hop'
        exact hok op' (by simp [hop'])

/-- Counterexample to claim C8 as stated: lazy eviction does not update
the aggregator.  After "alice" is cached with value "France" at time 0,
the aggregator count for "France" is 1; an expired read at the entry's
expiry removes the entry from the cache (zero live keys hold "France"),
yet the aggregator — untouched by the eviction, which deletes only from
`locationCache` — still reports 1. -/
theorem C8_counterexample :
    statsCount (saveCacheEntry initState "alice" (some "France") 0).locationStats
      "France" = 1 ∧
    (cacheGet (saveCacheEntry initState "alice" (some "France") 0).locationCache
      "alice" 2592000000).1 = none ∧
    liveCount (cacheGet (saveCacheEntry initState "alice" (some "France") 0).locationCache
      "alice" 2592000000).2 "France" 2592000000 = 0 ∧
    statsCount (saveCacheEntry initState "alice" (some "France") 0).locationStats
        "France" ≠
      liveCount (cacheGet (saveCacheEntry initState "alice" (some "France") 0).locationCache
        "alice" 2592000000).2 "France" 2592000000 := by
  refine ⟨by decide, by decide, by decide, by decide⟩

/-- Claim C8 as amended: for add-only histories the invariant holds — for
every value `v`, the aggregator's username set (and hence its count)
equals the list (count) of distinct keys whose live cache entry holds `v`,
for any sequence of `saveCacheEntry` writes of distinct keys whose
non-null entries are unexpired and non-empty; when a key is removed or
expires, however, the aggregator is not decremented, so from then on it
counts distinct keys recorded since the last rebuild rather than live
keys (see the counterexample). -/
theorem C8_aggregator_consistency (ops : List CacheOp) (now : Nat)
    (hnodup : (ops.map CacheOp.username).Nodup)
    (hok : ∀ op ∈ ops, op.location = none ∨
      ∃ w, op.location = some w ∧ w ≠ "" ∧ now < calculateExpiry (some w) op.time) :
    ∀ v, statsCount (applyOps initState ops).locationStats v =
        liveCount (applyOps initState ops).locationCache v now ∧
      statsUsers (applyOps initState ops).locationStats v =
        liveUsers (applyOps initState ops).locationCache v now := by
  have h := applyOps_inv now ops initState
    (by intro v; simp [statsUsers, liveUsers, AList.findKey, initState])
    (by intro op _; simp [initState, AList.keys])
    hnodup hok
  intro v
  exact ⟨by rw [statsCount, liveCount, h v], h v⟩

/-- Witness for C8 at a concrete input: after caching "alice" and "bob"
with "France" and "carol" with no location, the aggregator count for
"France" and the number of live keys holding "France" are both 2. -/
theorem C8_aggregator_consistency_witness :
    statsCount (applyOps initState
      [{ username := "alice", location := some "France", time := 0 },
       { username := "bob", location := some "France", time := 5 },
       { username := "carol", location := none, time := 1 }]).locationStats "France" =
    liveCount (applyOps initState
      [{ username := "alice", location := some "France", time := 0 },
       { username := "bob", location := some "France", time := 5 },
       { username := "carol", location := none, time := 1 }]).locationCache "France" 10 ∧
    statsCount (applyOps initState
      [{ username := "alice", location := some "France", time := 0 },
       { username := "bob", location := some "France", time := 5 },
       { username := "carol", location := none, time := 1 }]).locationStats "France" = 2 := by
  constructor
  · exact (C8_aggregator_consistency
      [{ username := "alice", location := some "France", time := 0 },
       { username := "bob", location := some "France", time := 5 },
       { username := "carol", location := none, time := 1 }] 10
      (by decide)
      (by
        intro op hop
        rcases List.mem_cons.mp hop with rfl | hop
        · exact Or.inr ⟨"France", rfl, by decide, by decide⟩
        rcases List.mem_cons.mp hop with rfl | hop
        · exact Or.inr ⟨"France", rfl, by decide, by decide⟩
        rcases List.mem_cons.mp hop with rfl | hop
        · exact Or.inl rfl
        · exact absurd hop (by simp))
      "France").1
  · decide

end XAccountLocation
